import Mathlib

/-!
Shallow embedding of the session-management core of bmcweb
(`src/include/sessions.hpp`, namespace `persistent_data`), together with
proofs about its operations.

Modelling conventions:
* the monotonic clock (`std::chrono::steady_clock`) is modelled as `Int`
  measured in seconds; `std::chrono::seconds` durations are `Int`;
* `std::unordered_map<std::string, std::shared_ptr<UserSession>, Hash,
  ConstantTimeCompare>` is modelled as an association list
  `List (String × UserSession)`; `emplace`, `find`, `erase` and `erase_if`
  are modelled below with the same semantics (emplace does not overwrite an
  existing key and yields the existing entry);
* mutation of a session through a `shared_ptr` held in the map is modelled
  by rewriting the map entry's value;
* the OpenSSL random generator is modelled as a draw function
  `Nat → Option (Fin 62)`: draw `i` either yields an index into the
  62-symbol alphabet or signals an entropy fault (`none`), matching
  `gen.error()` being checked after every drawn character.
-/

namespace persistent_data

/-- `constexpr std::size_t sessionTokenSize = 20;` -/
def sessionTokenSize : Nat := 20

/-- `enum class PersistenceType { TIMEOUT, SINGLE_REQUEST }` -/
inductive PersistenceType
  | TIMEOUT
  | SINGLE_REQUEST
deriving DecidableEq, Repr

/-- `struct UserSession` (fields in source order). -/
structure UserSession where
  uniqueId : String
  sessionToken : String
  username : String
  csrfToken : String
  clientId : Option String
  clientIp : String
  lastUpdated : Int
  persistence : PersistenceType
  cookieAuth : Bool
  isConfigureSelfOnly : Bool
  userRole : String
  userGroups : List String
deriving DecidableEq, Repr

/-- `struct AuthConfigMethods` (the five mechanism toggles; the build-time
defaults are irrelevant to the claims, so the fields carry no defaults). -/
structure AuthConfigMethods where
  basic : Bool
  sessionToken : Bool
  xtoken : Bool
  cookie : Bool
  tls : Bool
deriving DecidableEq, Repr

/-- Modelled from the spec: `crow::utility::ConstantTimeCompare`, the map's
key-equality functor, lives in `utility.hpp`, which is not part of the
sources under verification.  The spec requires the comparison to be
constant-time in the secret value: when the lengths agree every position is
examined regardless of where a mismatch occurs, and only a length mismatch
may short-circuit.  `ctScan` scans both strings to the end accumulating a
difference bit; the second component counts the per-character comparisons
performed, serving as the cost model. -/
def ctScan : List Char → List Char → Bool → Bool × Nat
  | x :: xs, y :: ys, acc =>
      let r := ctScan xs ys (acc || decide (x ≠ y))
      (r.1, r.2 + 1)
  | _, _, acc => (acc, 0)

/-- Modelled from the spec: the constant-time comparison itself.  Returns
(are the strings equal, number of per-character comparisons performed). -/
def constantTimeCompare (a b : List Char) : Bool × Nat :=
  if a.length = b.length then
    let r := ctScan a b false
    (!r.1, r.2)
  else (false, 0)

/-- Key equality used by the `authTokens` map (`ConstantTimeCompare`). -/
def ctEq (a b : String) : Bool :=
  (constantTimeCompare a.data b.data).1

/-- `authTokens.find(key)`, yielding the mapped session. -/
def mapFind (m : List (String × UserSession)) (k : String) : Option UserSession :=
  (m.find? (fun p => ctEq p.1 k)).map (fun p => p.2)

/-- `authTokens.emplace(key, session)`: no insertion when the key is already
present; the returned session is the one the iterator points at. -/
def emplace (m : List (String × UserSession)) (k : String) (v : UserSession) :
    List (String × UserSession) × UserSession :=
  match mapFind m k with
  | some existing => (m, existing)
  | none => ((k, v) :: m, v)

/-- `authTokens.erase(key)`. -/
def eraseKey (m : List (String × UserSession)) (k : String) :
    List (String × UserSession) :=
  m.filter (fun p => !ctEq p.1 k)

/-- Mutation of the mapped session through its shared pointer
(`sessionIt->second->field = ...`): the entry at the key takes the new value. -/
def updateEntry (m : List (String × UserSession)) (k : String) (v : UserSession) :
    List (String × UserSession) :=
  m.map (fun p => if ctEq p.1 k then (p.1, v) else p)

/-- `class SessionStore` data members. -/
structure SessionStore where
  authTokens : List (String × UserSession)
  lastTimeoutUpdate : Int
  needWrite : Bool
  timeoutInSeconds : Int
  authMethodsConfig : AuthConfigMethods
deriving DecidableEq, Repr

/-- The 62-character alphabet of `generateUserSession` (source order). -/
def alphanum : List Char :=
  ['0', '1', '2', '3', '4', '5', '6', '7', '8', '9', 'A', 'B', 'C',
   'D', 'E', 'F', 'G', 'H', 'I', 'J', 'K', 'L', 'M', 'N', 'O', 'P',
   'Q', 'R', 'S', 'T', 'U', 'V', 'W', 'X', 'Y', 'Z', 'a', 'b', 'c',
   'd', 'e', 'f', 'g', 'h', 'i', 'j', 'k', 'l', 'm', 'n', 'o', 'p',
   'q', 'r', 's', 't', 'u', 'v', 'w', 'x', 'y', 'z']

theorem alphanum_length : alphanum.length = 62 := rfl

/-- `alphanum[dist(gen)]`. -/
def alphanumGet (i : Fin 62) : Char :=
  alphanum.get (Fin.cast alphanum_length.symm i)

/-- One generation loop of `generateUserSession`: draw `n` characters from
the entropy source starting at draw index `start`; an entropy fault on any
draw aborts (the source checks `gen.error()` after each character). -/
def drawChars (g : Nat → Option (Fin 62)) : Nat → Nat → Option (List Char)
  | _, 0 => some []
  | start, n + 1 =>
    match g start with
    | none => none
    | some v =>
      match drawChars g (start + 1) n with
      | none => none
      | some rest => some (alphanumGet v :: rest)

/-- The record literal built by `generateUserSession` from the three drawn
strings (`UserSession{uniqueId, sessionToken, username, csrfToken, clientId,
clientIp, now, persistence, false, isConfigureSelfOnly, "", {}}`). -/
def generatedSession (now : Int) (username clientIp : String)
    (clientId : Option String) (persistence : PersistenceType)
    (isConfigureSelfOnly : Bool) (stoken csrf uid : List Char) : UserSession :=
  { uniqueId := String.mk uid
    sessionToken := String.mk stoken
    username := username
    csrfToken := String.mk csrf
    clientId := clientId
    clientIp := clientIp
    lastUpdated := now
    persistence := persistence
    cookieAuth := false
    isConfigureSelfOnly := isConfigureSelfOnly
    userRole := ""
    userGroups := [] }

/-- `SessionStore::generateUserSession`.  `g` is the entropy source
(modelled, see above), `now` the value of `steady_clock::now()`, and
`clientIp` the already-stringified client address.  The three loops consume
draws `0..19` (sessionToken), `20..39` (csrfToken) and `40..49` (uniqueId);
an entropy fault returns `nullptr` leaving the store untouched.  On success
the session is `emplace`d and `needWrite` is assigned
`persistence == TIMEOUT`. -/
def generateUserSession (store : SessionStore) (g : Nat → Option (Fin 62))
    (now : Int) (username : String) (clientIp : String)
    (clientId : Option String) (persistence : PersistenceType)
    (isConfigureSelfOnly : Bool) : Option UserSession × SessionStore :=
  match drawChars g 0 sessionTokenSize with
  | none => (none, store)
  | some stoken =>
    match drawChars g sessionTokenSize sessionTokenSize with
    | none => (none, store)
    | some csrf =>
      match drawChars g (sessionTokenSize + sessionTokenSize) 10 with
      | none => (none, store)
      | some uid =>
        let session : UserSession :=
          generatedSession now username clientIp clientId persistence
            isConfigureSelfOnly stoken csrf uid
        let r := emplace store.authTokens (String.mk stoken) session
        (some r.2,
         { store with
             authTokens := r.1
             needWrite := decide (persistence = PersistenceType.TIMEOUT) })

/-- `SessionStore::applySessionTimeouts`.  Runs only when more than one
second has elapsed since the previous run; then erases every session with
`timeNow - lastUpdated >= timeoutInSeconds`, setting `needWrite` for each
erasure. -/
def applySessionTimeouts (store : SessionStore) (now : Int) : SessionStore :=
  if 1 < now - store.lastTimeoutUpdate then
    { store with
        lastTimeoutUpdate := now
        authTokens := store.authTokens.filter
          (fun p => !decide (store.timeoutInSeconds ≤ now - p.2.lastUpdated))
        needWrite := store.needWrite ||
          store.authTokens.any
            (fun p => decide (store.timeoutInSeconds ≤ now - p.2.lastUpdated)) }
  else store

/-- `SessionStore::loginSessionByToken`: sweep, length check, map lookup,
refresh of `lastUpdated` through the shared pointer. -/
def loginSessionByToken (store : SessionStore) (token : String) (now : Int) :
    Option UserSession × SessionStore :=
  let st := applySessionTimeouts store now
  if token.length ≠ sessionTokenSize then (none, st)
  else
    match mapFind st.authTokens token with
    | none => (none, st)
    | some s =>
      let s2 := { s with lastUpdated := now }
      (some s2, { st with authTokens := updateEntry st.authTokens token s2 })

/-- `SessionStore::getSessionByUid`: sweep, then linear scan on `uniqueId`. -/
def getSessionByUid (store : SessionStore) (uid : String) (now : Int) :
    Option UserSession × SessionStore :=
  let st := applySessionTimeouts store now
  ((st.authTokens.find? (fun p => p.2.uniqueId = uid)).map (fun p => p.2), st)

/-- `SessionStore::removeSession`: erase by the session's own token and set
the dirty flag unconditionally. -/
def removeSession (store : SessionStore) (session : UserSession) :
    SessionStore :=
  { store with
      authTokens := eraseKey store.authTokens session.sessionToken
      needWrite := true }

/-- `SessionStore::getUniqueIds`: sweep, then snapshot the uniqueIds of the
sessions passing the `getAll || type == persistence` filter. -/
def getUniqueIds (store : SessionStore) (now : Int) (getAll : Bool)
    (type : PersistenceType) : List String × SessionStore :=
  let st := applySessionTimeouts store now
  ((st.authTokens.filter
      (fun p => getAll || decide (type = p.2.persistence))).map
     (fun p => p.2.uniqueId),
   st)

/-- `SessionStore::removeSessionsByUsername`: `erase_if` on username match.
The source's null-pointer guard is vacuous in the model. -/
def removeSessionsByUsername (store : SessionStore) (username : String) :
    SessionStore :=
  { store with
      authTokens := store.authTokens.filter
        (fun p => !decide (p.2.username = username)) }

/-- `SessionStore::removeSessionsByUsernameExceptSession`: `erase_if` on
username match with a `uniqueId` carve-out for the kept session. -/
def removeSessionsByUsernameExceptSession (store : SessionStore)
    (username : String) (session : UserSession) : SessionStore :=
  { store with
      authTokens := store.authTokens.filter
        (fun p => !(decide (p.2.username = username) &&
                    decide (p.2.uniqueId ≠ session.uniqueId))) }

/-- The JSON values `UserSession::fromJson` can encounter: only string
values are consumed; everything else is "not of type string". -/
inductive JValue
  | str (s : String)
  | num (n : Int)
  | boolean (b : Bool)
  | null
deriving DecidableEq, Repr

/-- The default-constructed `UserSession` that `fromJson` starts from. -/
def emptyUserSession : UserSession :=
  { uniqueId := ""
    sessionToken := ""
    username := ""
    csrfToken := ""
    clientId := none
    clientIp := ""
    lastUpdated := 0
    persistence := PersistenceType.TIMEOUT
    cookieAuth := false
    isConfigureSelfOnly := false
    userRole := ""
    userGroups := [] }

/-- One iteration of the `fromJson` element loop: non-string values are
logged and skipped, recognised keys assign the matching field, unrecognised
keys are logged and skipped. -/
def applyElem (u : UserSession) (e : String × JValue) : UserSession :=
  match e.2 with
  | JValue.str v =>
    if e.1 = "unique_id" then { u with uniqueId := v }
    else if e.1 = "session_token" then { u with sessionToken := v }
    else if e.1 = "csrf_token" then { u with csrfToken := v }
    else if e.1 = "username" then { u with username := v }
    else if e.1 = "client_id" then { u with clientId := some v }
    else if e.1 = "client_ip" then { u with clientIp := v }
    else u
  | _ => u

/-- `UserSession::fromJson`.  The JSON object is a key-value list (JSON
object keys are unique; theorems assume `Nodup` on the keys).  After the
element loop the four mandatory fields are checked for emptiness; on
acceptance `lastUpdated` is reset to now and persistence forced to
`TIMEOUT`. -/
def UserSession.fromJson (j : List (String × JValue)) (now : Int) :
    Option UserSession :=
  let u := j.foldl applyElem emptyUserSession
  if u.uniqueId = "" ∨ u.username = "" ∨ u.sessionToken = "" ∨ u.csrfToken = ""
  then none
  else some { u with lastUpdated := now, persistence := PersistenceType.TIMEOUT }

/-- Is key `k` present in `j` with a non-empty string value?  (The
acceptance criterion of the spec for each mandatory field.) -/
def presentNonEmpty (j : List (String × JValue)) (k : String) : Bool :=
  j.any (fun e =>
    decide (e.1 = k) &&
    match e.2 with
    | JValue.str v => decide (v ≠ "")
    | _ => false)

/-- The effect of the `fromJson` element loop on one string field: key `k`
with a string value assigns it, anything else keeps the accumulator. -/
def updField (k : String) (acc : String) (e : String × JValue) : String :=
  match e.2 with
  | JValue.str v => if e.1 = k then v else acc
  | _ => acc

/-! ### Concrete sample data for evaluated instances -/

def sampleAuthConfig : AuthConfigMethods :=
  { basic := true, sessionToken := true, xtoken := true, cookie := true,
    tls := true }

/-- A store holding no sessions. -/
def emptyStore : SessionStore :=
  { authTokens := []
    lastTimeoutUpdate := 0
    needWrite := false
    timeoutInSeconds := 1800
    authMethodsConfig := sampleAuthConfig }

/-- An entropy source that always draws symbol 0 (the character 0). -/
def zeroDraws : Nat → Option (Fin 62) := fun _ => some 0

/-- The token generated by 20 draws from `zeroDraws`. -/
def zeroToken : String := String.mk (List.replicate 20 '0')

/-- A live session of user bob stored under `zeroToken`. -/
def bobSession : UserSession :=
  { uniqueId := "bobuid0000"
    sessionToken := zeroToken
    username := "bob"
    csrfToken := "bobcsrf"
    clientId := none
    clientIp := "10.0.0.9"
    lastUpdated := 0
    persistence := PersistenceType.TIMEOUT
    cookieAuth := false
    isConfigureSelfOnly := false
    userRole := "Administrator"
    userGroups := ["web"] }

/-- A store already holding bob's session under `zeroToken`. -/
def bobStore : SessionStore :=
  { authTokens := [(zeroToken, bobSession)]
    lastTimeoutUpdate := 0
    needWrite := false
    timeoutInSeconds := 1800
    authMethodsConfig := sampleAuthConfig }

/-- The record generateUserSession builds from all-zero draws for alice. -/
def aliceZeroRecord : UserSession :=
  generatedSession 5 "alice" "1.2.3.4" none PersistenceType.TIMEOUT false
    (List.replicate 20 '0') (List.replicate 20 '0') (List.replicate 10 '0')

/-- The store after generating alice's session from all-zero draws on an
empty store. -/
def aliceZeroStore : SessionStore :=
  { authTokens := [(zeroToken, aliceZeroRecord)]
    lastTimeoutUpdate := 0
    needWrite := true
    timeoutInSeconds := 1800
    authMethodsConfig := sampleAuthConfig }

/-- The record generateUserSession builds from all-zero draws for a
`SINGLE_REQUEST` session of alice. -/
def aliceSingleRecord : UserSession :=
  generatedSession 5 "alice" "1.2.3.4" none PersistenceType.SINGLE_REQUEST
    false (List.replicate 20 '0') (List.replicate 20 '0')
    (List.replicate 10 '0')

/-- The empty store with the dirty flag already set. -/
def dirtyEmptyStore : SessionStore :=
  { authTokens := []
    lastTimeoutUpdate := 0
    needWrite := true
    timeoutInSeconds := 1800
    authMethodsConfig := sampleAuthConfig }

/-- A session of user carol, last active at monotonic time 0. -/
def carolSession : UserSession :=
  { uniqueId := "caroluid00"
    sessionToken := zeroToken
    username := "carol"
    csrfToken := "carolcsrf"
    clientId := none
    clientIp := "10.0.0.7"
    lastUpdated := 0
    persistence := PersistenceType.TIMEOUT
    cookieAuth := false
    isConfigureSelfOnly := false
    userRole := ""
    userGroups := [] }

/-- Store whose sweep stamp equals the current time 7 (guard closed), with
carol's session expired by exactly idleTimeout + 1 (timeout 6, age 7). -/
def guardClosedStore : SessionStore :=
  { authTokens := [(zeroToken, carolSession)]
    lastTimeoutUpdate := 7
    needWrite := false
    timeoutInSeconds := 6
    authMethodsConfig := sampleAuthConfig }

/-- The same store with the sweep stamp in the past (guard open). -/
def guardOpenStore : SessionStore :=
  { authTokens := [(zeroToken, carolSession)]
    lastTimeoutUpdate := 0
    needWrite := false
    timeoutInSeconds := 6
    authMethodsConfig := sampleAuthConfig }

/-- A persisted document with the four mandatory fields, one unrecognised
extra key, and one recognised key of the wrong type. -/
def sampleDoc : List (String × JValue) :=
  [("unique_id", JValue.str "u1"), ("username", JValue.str "alice"),
   ("session_token", JValue.str "tok1"), ("csrf_token", JValue.str "c1"),
   ("rogue_key", JValue.str "zzz"), ("client_ip", JValue.num 5)]

/-- Alice's first session. -/
def aliceSessionA : UserSession :=
  { uniqueId := "uidA000000"
    sessionToken := String.mk (List.replicate 20 'A')
    username := "alice"
    csrfToken := "csrfA"
    clientId := none
    clientIp := "10.0.0.1"
    lastUpdated := 0
    persistence := PersistenceType.TIMEOUT
    cookieAuth := false
    isConfigureSelfOnly := false
    userRole := ""
    userGroups := [] }

/-- Alice's second session. -/
def aliceSessionB : UserSession :=
  { uniqueId := "uidB000000"
    sessionToken := String.mk (List.replicate 20 'B')
    username := "alice"
    csrfToken := "csrfB"
    clientId := none
    clientIp := "10.0.0.2"
    lastUpdated := 0
    persistence := PersistenceType.TIMEOUT
    cookieAuth := false
    isConfigureSelfOnly := false
    userRole := ""
    userGroups := [] }

/-- A store with both of alice's sessions and bob's session live. -/
def multiUserStore : SessionStore :=
  { authTokens := [(aliceSessionA.sessionToken, aliceSessionA),
                   (aliceSessionB.sessionToken, aliceSessionB),
                   (zeroToken, bobSession)]
    lastTimeoutUpdate := 0
    needWrite := false
    timeoutInSeconds := 1800
    authMethodsConfig := sampleAuthConfig }

/-! ### Helper lemmas -/

theorem ctScan_snd (a : List Char) : ∀ (b : List Char) (acc : Bool),
    a.length = b.length → (ctScan a b acc).2 = a.length := by
  induction a with
  | nil => intro b acc h; cases b with
    | nil => rfl
    | cons y ys => simp at h
  | cons x xs ih =>
    intro b acc h
    cases b with
    | nil => simp at h
    | cons y ys =>
      simp only [ctScan]
      rw [ih ys _ (by simpa using h)]
      simp

theorem ctScan_fst (a : List Char) : ∀ (b : List Char) (acc : Bool),
    a.length = b.length → (ctScan a b acc).1 = (acc || decide (a ≠ b)) := by
  induction a with
  | nil => intro b acc h; cases b with
    | nil => simp [ctScan]
    | cons y ys => simp at h
  | cons x xs ih =>
    intro b acc h
    cases b with
    | nil => simp at h
    | cons y ys =>
      simp only [ctScan]
      rw [ih ys _ (by simpa using h)]
      by_cases hx : x = y <;> by_cases hxs : xs = ys <;> simp [hx, hxs]

theorem constantTimeCompare_fst (a b : List Char) :
    (constantTimeCompare a b).1 = decide (a = b) := by
  unfold constantTimeCompare
  by_cases h : a.length = b.length
  · simp only [h, if_pos rfl]
    rw [ctScan_fst a b false h]
    by_cases hab : a = b <;> simp [hab]
  · have hab : a ≠ b := fun e => h (e ▸ rfl)
    simp [h, hab]

theorem constantTimeCompare_snd (a b : List Char) (h : a.length = b.length) :
    (constantTimeCompare a b).2 = a.length := by
  unfold constantTimeCompare
  rw [if_pos h]
  exact ctScan_snd a b false h

theorem ctEq_eq (a b : String) : ctEq a b = decide (a = b) := by
  rw [ctEq, constantTimeCompare_fst]
  simp only [decide_eq_decide]
  exact ⟨fun h => String.ext h, fun h => h ▸ rfl⟩

theorem mapFind_eq (m : List (String × UserSession)) (k : String) :
    mapFind m k =
      (m.find? (fun p => decide (p.1 = k))).map (fun p => p.2) := by
  unfold mapFind
  simp only [ctEq_eq]

theorem mapFind_cons (k' : String) (v : UserSession)
    (m : List (String × UserSession)) (k : String) :
    mapFind ((k', v) :: m) k = if k' = k then some v else mapFind m k := by
  rw [mapFind_eq, mapFind_eq, List.find?_cons]
  by_cases h : k' = k <;> simp [h]

theorem mapFind_eq_none_iff (m : List (String × UserSession)) (k : String) :
    mapFind m k = none ↔ ∀ p ∈ m, p.1 ≠ k := by
  rw [mapFind_eq]
  simp [List.find?_eq_none]

/-- If `find?` hits an element that the filter keeps, filtering does not
change the result of `find?`. -/
theorem find_filter_of_find {α : Type} (l : List α) (q pred : α → Bool)
    (x : α) (h : l.find? q = some x) (hx : pred x = true) :
    (l.filter pred).find? q = some x := by
  induction l with
  | nil => simp at h
  | cons a l ih =>
    by_cases hq : q a = true
    · rw [List.find?_cons_of_pos _ hq] at h
      cases h
      rw [List.filter_cons, if_pos hx, List.find?_cons_of_pos _ hq]
    · rw [List.find?_cons_of_neg _ hq] at h
      rw [List.filter_cons]
      by_cases hp : pred a = true
      · rw [if_pos hp, List.find?_cons_of_neg _ hq]
        exact ih h
      · rw [if_neg hp]
        exact ih h

theorem mapFind_filter (m : List (String × UserSession)) (k : String)
    (pred : String × UserSession → Bool) (s : UserSession)
    (h : mapFind m k = some s)
    (hkeep : ∀ p ∈ m, p.1 = k → p.2 = s → pred p = true) :
    mapFind (m.filter pred) k = some s := by
  rw [mapFind_eq] at h ⊢
  obtain ⟨p, hp, hps⟩ := Option.map_eq_some'.mp h
  have hmem : p ∈ m := List.mem_of_find?_eq_some hp
  have hk : p.1 = k := by
    have := List.find?_some hp
    simpa using this
  rw [find_filter_of_find m _ pred p hp (hkeep p hmem hk hps)]
  simp [hps]

theorem updateEntry_cons_pos (a : String × UserSession)
    (l : List (String × UserSession)) (k : String) (v : UserSession)
    (ha : a.1 = k) :
    updateEntry (a :: l) k v = (a.1, v) :: updateEntry l k v := by
  unfold updateEntry
  simp [ctEq_eq, ha]

theorem updateEntry_cons_neg (a : String × UserSession)
    (l : List (String × UserSession)) (k : String) (v : UserSession)
    (ha : ¬ a.1 = k) :
    updateEntry (a :: l) k v = a :: updateEntry l k v := by
  unfold updateEntry
  simp [ctEq_eq, ha]

theorem mapFind_updateEntry (m : List (String × UserSession)) (k : String)
    (s v : UserSession) (h : mapFind m k = some s) :
    mapFind (updateEntry m k v) k = some v := by
  induction m with
  | nil => rw [mapFind_eq] at h; simp at h
  | cons a l ih =>
    rw [mapFind_cons] at h
    by_cases ha : a.1 = k
    · rw [updateEntry_cons_pos a l k v ha, mapFind_cons, if_pos ha]
    · rw [updateEntry_cons_neg a l k v ha, mapFind_cons, if_neg ha]
      rw [if_neg ha] at h
      exact ih h

theorem mem_updateEntry (m : List (String × UserSession)) (k : String)
    (v : UserSession) (p : String × UserSession)
    (h : p ∈ updateEntry m k v) :
    (p ∈ m ∧ p.1 ≠ k) ∨ (p.1 = k ∧ p.2 = v) := by
  unfold updateEntry at h
  obtain ⟨q, hq, hqe⟩ := List.mem_map.mp h
  by_cases hk : ctEq q.1 k = true
  · right
    rw [if_pos hk] at hqe
    subst hqe
    exact ⟨by simpa [ctEq_eq] using hk, rfl⟩
  · left
    rw [if_neg hk] at hqe
    subst hqe
    exact ⟨hq, by simpa [ctEq_eq] using hk⟩

theorem exists_mem_updateEntry (m : List (String × UserSession)) (k : String)
    (v : UserSession) (p : String × UserSession) (h : p ∈ m) :
    ∃ q ∈ updateEntry m k v, q.1 = p.1 := by
  unfold updateEntry
  by_cases hk : ctEq p.1 k = true
  · exact ⟨(p.1, v), List.mem_map.mpr ⟨p, h, by rw [if_pos hk]⟩, rfl⟩
  · exact ⟨p, List.mem_map.mpr ⟨p, h, by rw [if_neg hk]⟩, rfl⟩

theorem eraseKey_of_not_mem (m : List (String × UserSession)) (k : String)
    (h : mapFind m k = none) : eraseKey m k = m := by
  rw [mapFind_eq_none_iff] at h
  unfold eraseKey
  rw [List.filter_eq_self]
  intro p hp
  simp [ctEq_eq, h p hp]

theorem drawChars_eq_none_iff (g : Nat → Option (Fin 62)) :
    ∀ (n start : Nat),
      drawChars g start n = none ↔ ∃ j, j < n ∧ g (start + j) = none := by
  intro n
  induction n with
  | zero => intro start; simp [drawChars]
  | succ n ih =>
    intro start
    constructor
    · intro h
      simp only [drawChars] at h
      cases hg : g start with
      | none => exact ⟨0, Nat.succ_pos n, by simpa using hg⟩
      | some v =>
        rw [hg] at h
        cases hd : drawChars g (start + 1) n with
        | none =>
          obtain ⟨j, hj, hgj⟩ := (ih (start + 1)).mp hd
          refine ⟨j + 1, Nat.succ_lt_succ hj, ?_⟩
          have e : start + (j + 1) = start + 1 + j := by omega
          rw [e]; exact hgj
        | some rest => rw [hd] at h; cases h
    · rintro ⟨j, hj, hgj⟩
      simp only [drawChars]
      cases hg : g start with
      | none => rfl
      | some v =>
        have hj0 : j ≠ 0 := by
          intro h0
          subst h0
          rw [Nat.add_zero] at hgj
          rw [hgj] at hg
          exact Option.noConfusion hg
        have hd : drawChars g (start + 1) n = none := by
          refine (ih (start + 1)).mpr ⟨j - 1, by omega, ?_⟩
          have e : start + 1 + (j - 1) = start + j := by omega
          rw [e]; exact hgj
        rw [hd]

theorem drawChars_congr (g g' : Nat → Option (Fin 62)) :
    ∀ (n start : Nat), (∀ j < n, g (start + j) = g' (start + j)) →
      drawChars g start n = drawChars g' start n := by
  intro n
  induction n with
  | zero => intro start _; rfl
  | succ n ih =>
    intro start hagree
    simp only [drawChars]
    have h0 : g start = g' start := by simpa using hagree 0 (Nat.succ_pos n)
    rw [h0]
    cases g' start with
    | none => rfl
    | some v =>
      rw [ih (start + 1) (fun j hj => by
        have : start + 1 + j = start + (j + 1) := by omega
        rw [this]; exact hagree (j + 1) (Nat.succ_lt_succ hj))]

theorem applyElem_uniqueId (u : UserSession) (e : String × JValue) :
    (applyElem u e).uniqueId = updField "unique_id" u.uniqueId e := by
  rcases e with ⟨k, v⟩
  cases v <;> simp only [applyElem, updField]
  by_cases h1 : k = "unique_id" <;>
    by_cases h2 : k = "session_token" <;>
      by_cases h3 : k = "csrf_token" <;>
        by_cases h4 : k = "username" <;>
          by_cases h5 : k = "client_id" <;>
            by_cases h6 : k = "client_ip" <;>
              simp [h1, h2, h3, h4, h5, h6]

theorem applyElem_sessionToken (u : UserSession) (e : String × JValue) :
    (applyElem u e).sessionToken = updField "session_token" u.sessionToken e := by
  rcases e with ⟨k, v⟩
  cases v <;> simp only [applyElem, updField]
  by_cases h1 : k = "unique_id" <;>
    by_cases h2 : k = "session_token" <;>
      by_cases h3 : k = "csrf_token" <;>
        by_cases h4 : k = "username" <;>
          by_cases h5 : k = "client_id" <;>
            by_cases h6 : k = "client_ip" <;>
              simp [h1, h2, h3, h4, h5, h6]

theorem applyElem_csrfToken (u : UserSession) (e : String × JValue) :
    (applyElem u e).csrfToken = updField "csrf_token" u.csrfToken e := by
  rcases e with ⟨k, v⟩
  cases v <;> simp only [applyElem, updField]
  by_cases h1 : k = "unique_id" <;>
    by_cases h2 : k = "session_token" <;>
      by_cases h3 : k = "csrf_token" <;>
        by_cases h4 : k = "username" <;>
          by_cases h5 : k = "client_id" <;>
            by_cases h6 : k = "client_ip" <;>
              simp [h1, h2, h3, h4, h5, h6]

theorem applyElem_username (u : UserSession) (e : String × JValue) :
    (applyElem u e).username = updField "username" u.username e := by
  rcases e with ⟨k, v⟩
  cases v <;> simp only [applyElem, updField]
  by_cases h1 : k = "unique_id" <;>
    by_cases h2 : k = "session_token" <;>
      by_cases h3 : k = "csrf_token" <;>
        by_cases h4 : k = "username" <;>
          by_cases h5 : k = "client_id" <;>
            by_cases h6 : k = "client_ip" <;>
              simp [h1, h2, h3, h4, h5, h6]

theorem foldl_applyElem_uniqueId (j : List (String × JValue)) :
    ∀ u : UserSession,
      (j.foldl applyElem u).uniqueId =
        j.foldl (updField "unique_id") u.uniqueId := by
  induction j with
  | nil => intro u; rfl
  | cons e j ih =>
    intro u
    rw [List.foldl_cons, List.foldl_cons, ih, applyElem_uniqueId]

theorem foldl_applyElem_sessionToken (j : List (String × JValue)) :
    ∀ u : UserSession,
      (j.foldl applyElem u).sessionToken =
        j.foldl (updField "session_token") u.sessionToken := by
  induction j with
  | nil => intro u; rfl
  | cons e j ih =>
    intro u
    rw [List.foldl_cons, List.foldl_cons, ih, applyElem_sessionToken]

theorem foldl_applyElem_csrfToken (j : List (String × JValue)) :
    ∀ u : UserSession,
      (j.foldl applyElem u).csrfToken =
        j.foldl (updField "csrf_token") u.csrfToken := by
  induction j with
  | nil => intro u; rfl
  | cons e j ih =>
    intro u
    rw [List.foldl_cons, List.foldl_cons, ih, applyElem_csrfToken]

theorem foldl_applyElem_username (j : List (String × JValue)) :
    ∀ u : UserSession,
      (j.foldl applyElem u).username =
        j.foldl (updField "username") u.username := by
  induction j with
  | nil => intro u; rfl
  | cons e j ih =>
    intro u
    rw [List.foldl_cons, List.foldl_cons, ih, applyElem_username]

theorem foldl_updField_of_not_mem (k : String) (j : List (String × JValue)) :
    ∀ acc : String, (∀ e ∈ j, e.1 ≠ k) → j.foldl (updField k) acc = acc := by
  induction j with
  | nil => intro acc _; rfl
  | cons e j ih =>
    intro acc h
    rw [List.foldl_cons]
    have he : e.1 ≠ k := h e (List.mem_cons_self e j)
    have : updField k acc e = acc := by
      unfold updField
      cases e.2 <;> simp [he]
    rw [this]
    exact ih acc (fun x hx => h x (List.mem_cons_of_mem e hx))

theorem presentNonEmpty_of_not_mem (k : String) (j : List (String × JValue))
    (h : ∀ e ∈ j, e.1 ≠ k) : presentNonEmpty j k = false := by
  unfold presentNonEmpty
  rw [List.any_eq_false]
  intro e he
  simp [h e he]

theorem foldl_updField_ne_iff (k : String) (j : List (String × JValue))
    (hnd : (j.map (fun e => e.1)).Nodup) :
    j.foldl (updField k) "" ≠ "" ↔ presentNonEmpty j k = true := by
  induction j with
  | nil => simp [presentNonEmpty]
  | cons e j ih =>
    rw [List.map_cons, List.nodup_cons] at hnd
    obtain ⟨he, hnd'⟩ := hnd
    rw [List.foldl_cons]
    unfold presentNonEmpty
    rw [List.any_cons]
    by_cases hk : e.1 = k
    · have hjk : ∀ x ∈ j, x.1 ≠ k := by
        intro x hx hxk
        exact he (hk ▸ hxk ▸ List.mem_map_of_mem (fun e => e.1) hx)
      have hfold : ∀ acc, j.foldl (updField k) acc = acc :=
        fun acc => foldl_updField_of_not_mem k j acc hjk
      have hpne : presentNonEmpty j k = false :=
        presentNonEmpty_of_not_mem k j hjk
      unfold presentNonEmpty at hpne
      rw [hpne]
      cases hv : e.2 with
      | str v =>
        have : updField k "" e = v := by unfold updField; rw [hv]; simp [hk]
        rw [this, hfold v]
        simp [hk, hv]
      | num n =>
        have : updField k "" e = "" := by unfold updField; rw [hv]
        rw [this, hfold ""]
        simp [hv]
      | boolean b =>
        have : updField k "" e = "" := by unfold updField; rw [hv]
        rw [this, hfold ""]
        simp [hv]
      | null =>
        have : updField k "" e = "" := by unfold updField; rw [hv]
        rw [this, hfold ""]
        simp [hv]
    · have : updField k "" e = "" := by
        unfold updField
        cases e.2 <;> simp [hk]
      rw [this]
      have := ih hnd'
      unfold presentNonEmpty at this
      rw [this]
      simp [hk]

theorem applySessionTimeouts_of_le (store : SessionStore) (now : Int)
    (h : now - store.lastTimeoutUpdate ≤ 1) :
    applySessionTimeouts store now = store := by
  unfold applySessionTimeouts
  rw [if_neg (by omega)]

theorem applySessionTimeouts_authTokens (store : SessionStore) (now : Int)
    (hg : 1 < now - store.lastTimeoutUpdate) :
    (applySessionTimeouts store now).authTokens =
      store.authTokens.filter
        (fun p => !decide (store.timeoutInSeconds ≤ now - p.2.lastUpdated)) := by
  unfold applySessionTimeouts
  rw [if_pos hg]

theorem mem_applySessionTimeouts (store : SessionStore) (now : Int)
    (p : String × UserSession) (hg : 1 < now - store.lastTimeoutUpdate) :
    p ∈ (applySessionTimeouts store now).authTokens ↔
      p ∈ store.authTokens ∧ now - p.2.lastUpdated < store.timeoutInSeconds := by
  rw [applySessionTimeouts_authTokens store now hg]
  rw [List.mem_filter]
  simp [Int.not_le]

theorem applySessionTimeouts_lastTimeoutUpdate (store : SessionStore)
    (now : Int) (hg : 1 < now - store.lastTimeoutUpdate) :
    (applySessionTimeouts store now).lastTimeoutUpdate = now := by
  unfold applySessionTimeouts
  rw [if_pos hg]

theorem applySessionTimeouts_needWrite_iff (store : SessionStore) (now : Int)
    (hg : 1 < now - store.lastTimeoutUpdate) :
    ((applySessionTimeouts store now).needWrite = true ↔
      store.needWrite = true ∨
        ∃ p ∈ store.authTokens,
          store.timeoutInSeconds ≤ now - p.2.lastUpdated) := by
  unfold applySessionTimeouts
  rw [if_pos hg]
  simp [List.any_eq_true]

theorem applySessionTimeouts_timeoutInSeconds (store : SessionStore)
    (now : Int) :
    (applySessionTimeouts store now).timeoutInSeconds =
      store.timeoutInSeconds := by
  unfold applySessionTimeouts
  by_cases hg : 1 < now - store.lastTimeoutUpdate
  · rw [if_pos hg]
  · rw [if_neg hg]

/-- The state returned by `loginSessionByToken` is the swept state, with the
found entry (when the lookup succeeds) refreshed to `now`. -/
theorem loginSessionByToken_split (store : SessionStore) (token : String)
    (now : Int) :
    (loginSessionByToken store token now =
        (none, applySessionTimeouts store now) ∧
      (token.length ≠ sessionTokenSize ∨
        mapFind (applySessionTimeouts store now).authTokens token = none)) ∨
    (∃ s, token.length = sessionTokenSize ∧
      mapFind (applySessionTimeouts store now).authTokens token = some s ∧
      loginSessionByToken store token now =
        (some { s with lastUpdated := now },
         { applySessionTimeouts store now with
             authTokens :=
               updateEntry (applySessionTimeouts store now).authTokens token
                 { s with lastUpdated := now } })) := by
  unfold loginSessionByToken
  by_cases hl : token.length = sessionTokenSize
  · rw [if_neg (by simp [hl])]
    cases hf : mapFind (applySessionTimeouts store now).authTokens token with
    | none => exact Or.inl ⟨rfl, Or.inr rfl⟩
    | some s => exact Or.inr ⟨s, hl, rfl, rfl⟩
  · rw [if_pos hl]
    exact Or.inl ⟨rfl, Or.inl hl⟩

/-- Case analysis of `generateUserSession`: either some draw faulted and the
call fails with the store untouched, or all fifty draws succeeded and the
generated session is `emplace`d. -/
theorem generateUserSession_split (store : SessionStore)
    (g : Nat → Option (Fin 62)) (now : Int) (username clientIp : String)
    (clientId : Option String) (persistence : PersistenceType) (cso : Bool) :
    (generateUserSession store g now username clientIp clientId persistence
        cso = (none, store) ∧
      (drawChars g 0 sessionTokenSize = none ∨
       drawChars g sessionTokenSize sessionTokenSize = none ∨
       drawChars g (sessionTokenSize + sessionTokenSize) 10 = none)) ∨
    (∃ stoken csrf uid,
      drawChars g 0 sessionTokenSize = some stoken ∧
      drawChars g sessionTokenSize sessionTokenSize = some csrf ∧
      drawChars g (sessionTokenSize + sessionTokenSize) 10 = some uid ∧
      generateUserSession store g now username clientIp clientId persistence
          cso =
        (some (emplace store.authTokens (String.mk stoken)
            (generatedSession now username clientIp clientId persistence cso
              stoken csrf uid)).2,
         { store with
             authTokens :=
               (emplace store.authTokens (String.mk stoken)
                 (generatedSession now username clientIp clientId persistence
                   cso stoken csrf uid)).1
             needWrite := decide (persistence = PersistenceType.TIMEOUT) })) := by
  unfold generateUserSession
  cases h1 : drawChars g 0 sessionTokenSize with
  | none => exact Or.inl ⟨rfl, Or.inl rfl⟩
  | some stoken =>
    cases h2 : drawChars g sessionTokenSize sessionTokenSize with
    | none => exact Or.inl ⟨rfl, Or.inr (Or.inl rfl)⟩
    | some csrf =>
      cases h3 : drawChars g (sessionTokenSize + sessionTokenSize) 10 with
      | none => exact Or.inl ⟨rfl, Or.inr (Or.inr rfl)⟩
      | some uid => exact Or.inr ⟨stoken, csrf, uid, rfl, rfl, rfl, rfl⟩

/-! ### Claim C1 -/

/-- C1, counterexample: the claim says that on a duplicate-key collision the
insertion is aborted rather than returning an existing record.  With bob's
session live under the all-zero token and an entropy source that generates
exactly that token for alice, `generateUserSession` returns bob's existing
record (aliasing another live user's session) while claiming success. -/
theorem C1_counterexample :
    (generateUserSession bobStore zeroDraws 5 "alice" "1.2.3.4" none
        PersistenceType.TIMEOUT false).1 = some bobSession ∧
    (generateUserSession bobStore zeroDraws 5 "alice" "1.2.3.4" none
        PersistenceType.TIMEOUT false).2.authTokens = bobStore.authTokens := by
  exact ⟨by decide, by decide⟩

/-- C1, amended: on success there is a generated token such that either the
token is fresh — the record is inserted in front of the map, it carries the
requested username, and key uniqueness (`Nodup`) is preserved — or the token
collides with a live entry, in which case the insertion is aborted (the map
is unchanged, nothing is overwritten) but the *existing* record is returned
to the caller; uniqueId uniqueness is not checked at all. -/
theorem C1_generate_unique_amended (store : SessionStore)
    (g : Nat → Option (Fin 62)) (now : Int) (username clientIp : String)
    (clientId : Option String) (persistence : PersistenceType) (cso : Bool)
    (r : UserSession) (st2 : SessionStore)
    (h : generateUserSession store g now username clientIp clientId
        persistence cso = (some r, st2)) :
    (∃ tok : String,
      (mapFind store.authTokens tok = none →
        st2.authTokens = (tok, r) :: store.authTokens ∧
        r.sessionToken = tok ∧ r.username = username) ∧
      (∀ s, mapFind store.authTokens tok = some s →
        r = s ∧ st2.authTokens = store.authTokens)) ∧
    ((store.authTokens.map (fun p => p.1)).Nodup →
      (st2.authTokens.map (fun p => p.1)).Nodup) := by
  rcases generateUserSession_split store g now username clientIp clientId
      persistence cso with ⟨hfail, _⟩ | ⟨stoken, csrf, uid, h1, h2, h3, heq⟩
  · rw [hfail] at h
    exact absurd (congrArg Prod.fst h) (by simp)
  · rw [heq] at h
    injection h with hr hst
    injection hr with hr
    subst hr
    subst hst
    refine ⟨⟨String.mk stoken, ?_, ?_⟩, ?_⟩
    · intro hnone
      simp only [emplace, hnone]
      simp [generatedSession]
    · intro s hsome
      simp only [emplace, hsome]
      simp
    · intro hnd
      cases hfind : mapFind store.authTokens (String.mk stoken) with
      | some existing =>
        simp only [emplace, hfind]
        exact hnd
      | none =>
        simp only [emplace, hfind, List.map_cons, List.nodup_cons]
        refine ⟨?_, hnd⟩
        rw [mapFind_eq_none_iff] at hfind
        intro hmem
        obtain ⟨p, hp, hpk⟩ := List.mem_map.mp hmem
        exact hfind p hp hpk

/-- C1, witness: the amended theorem applied to an all-zero generation on
the empty store, where the generated token is fresh. -/
theorem C1_witness :
    ∃ tok : String,
      (mapFind emptyStore.authTokens tok = none →
        aliceZeroStore.authTokens = (tok, aliceZeroRecord) ::
          emptyStore.authTokens ∧
        aliceZeroRecord.sessionToken = tok ∧
        aliceZeroRecord.username = "alice") ∧
      (∀ s, mapFind emptyStore.authTokens tok = some s →
        aliceZeroRecord = s ∧
        aliceZeroStore.authTokens = emptyStore.authTokens) :=
  (C1_generate_unique_amended emptyStore zeroDraws 5 "alice" "1.2.3.4" none
    PersistenceType.TIMEOUT false aliceZeroRecord aliceZeroStore
    (by decide)).1

/-! ### Claim C3 -/

/-- C3: if the entropy source reports an error on any of the fifty draws the
three tokens need, `generateUserSession` fails outright, returning no record
and leaving the store exactly as it was (nothing inserted, no flag
touched); and the call consults only draws `0..49` — it never retries or
falls back, so two sources that agree on those draws produce identical
results. -/
theorem C3_entropy_failure (store : SessionStore)
    (g g2 : Nat → Option (Fin 62)) (now : Int) (username clientIp : String)
    (clientId : Option String) (persistence : PersistenceType) (cso : Bool) :
    ((∃ i, i < 50 ∧ g i = none) →
      generateUserSession store g now username clientIp clientId persistence
        cso = (none, store)) ∧
    ((∀ i, i < 50 → g i = g2 i) →
      generateUserSession store g now username clientIp clientId persistence
          cso =
        generateUserSession store g2 now username clientIp clientId
          persistence cso) := by
  have hs : sessionTokenSize = 20 := rfl
  constructor
  · rintro ⟨i, hi, hgi⟩
    rcases generateUserSession_split store g now username clientIp clientId
        persistence cso with ⟨hfail, _⟩ | ⟨stoken, csrf, uid, h1, h2, h3, _⟩
    · exact hfail
    · exfalso
      by_cases hi20 : i < 20
      · have : drawChars g 0 sessionTokenSize = none := by
          rw [drawChars_eq_none_iff]
          exact ⟨i, hi20, by simpa using hgi⟩
        rw [this] at h1
        exact Option.noConfusion h1
      · by_cases hi40 : i < 40
        · have : drawChars g sessionTokenSize sessionTokenSize = none := by
            rw [drawChars_eq_none_iff]
            refine ⟨i - 20, by omega, ?_⟩
            have e : sessionTokenSize + (i - 20) = i := by omega
            rw [e]
            exact hgi
          rw [this] at h2
          exact Option.noConfusion h2
        · have : drawChars g (sessionTokenSize + sessionTokenSize) 10 =
              none := by
            rw [drawChars_eq_none_iff]
            refine ⟨i - 40, by omega, ?_⟩
            have e : sessionTokenSize + sessionTokenSize + (i - 40) = i := by
              omega
            rw [e]
            exact hgi
          rw [this] at h3
          exact Option.noConfusion h3
  · intro hagree
    unfold generateUserSession
    rw [drawChars_congr g g2 sessionTokenSize 0
        (fun j hj => hagree (0 + j) (by omega)),
      drawChars_congr g g2 sessionTokenSize sessionTokenSize
        (fun j hj => hagree (sessionTokenSize + j) (by omega)),
      drawChars_congr g g2 10 (sessionTokenSize + sessionTokenSize)
        (fun j hj => hagree (sessionTokenSize + sessionTokenSize + j)
          (by omega))]

/-- C3, witness: a source that faults immediately makes generation fail on
the empty store, which is returned unchanged. -/
theorem C3_witness :
    generateUserSession emptyStore (fun _ => none) 0 "alice" "1.2.3.4" none
      PersistenceType.TIMEOUT false = (none, emptyStore) :=
  (C3_entropy_failure emptyStore (fun _ => none) (fun _ => none) 0 "alice"
    "1.2.3.4" none PersistenceType.TIMEOUT false).1 ⟨0, by decide, rfl⟩

/-! ### Claim C6 -/

/-- C6: on every successful creation, the store's dirty flag ends up true
exactly when the new session's persistence mode is `TIMEOUT`; a
`SINGLE_REQUEST` session never makes the flag true, so it never triggers a
write to durable storage. -/
theorem C6_needsPersist_timeout_only (store : SessionStore)
    (g : Nat → Option (Fin 62)) (now : Int) (username clientIp : String)
    (clientId : Option String) (persistence : PersistenceType) (cso : Bool)
    (r : UserSession) (st2 : SessionStore)
    (h : generateUserSession store g now username clientIp clientId
        persistence cso = (some r, st2)) :
    (st2.needWrite = true ↔ persistence = PersistenceType.TIMEOUT) := by
  rcases generateUserSession_split store g now username clientIp clientId
      persistence cso with ⟨hfail, _⟩ | ⟨stoken, csrf, uid, _, _, _, heq⟩
  · rw [hfail] at h
    exact absurd (congrArg Prod.fst h) (by simp)
  · rw [heq] at h
    have hst := congrArg Prod.snd h
    simp only at hst
    rw [← hst]
    simp

/-- C6, witness: generating a `TIMEOUT` session for alice on the empty store
sets the dirty flag. -/
theorem C6_witness :
    aliceZeroStore.needWrite = true ↔
      PersistenceType.TIMEOUT = PersistenceType.TIMEOUT :=
  C6_needsPersist_timeout_only emptyStore zeroDraws 5 "alice" "1.2.3.4" none
    PersistenceType.TIMEOUT false aliceZeroRecord aliceZeroStore (by decide)

/-! ### Claim C7 -/

/-- C7: `generateUserSession` assigns the dirty flag unconditionally to
`persistence == TIMEOUT`, so successfully creating a `SINGLE_REQUEST`
session overwrites a previously-true dirty flag with false, silently marking
a pending unpersisted change clean. -/
theorem C7_singleRequest_clears_dirty (store : SessionStore)
    (g : Nat → Option (Fin 62)) (now : Int) (username clientIp : String)
    (clientId : Option String) (cso : Bool) (r : UserSession)
    (st2 : SessionStore) (hdirty : store.needWrite = true)
    (h : generateUserSession store g now username clientIp clientId
        PersistenceType.SINGLE_REQUEST cso = (some r, st2)) :
    st2.needWrite = false := by
  rcases generateUserSession_split store g now username clientIp clientId
      PersistenceType.SINGLE_REQUEST cso with
    ⟨hfail, _⟩ | ⟨stoken, csrf, uid, _, _, _, heq⟩
  · rw [hfail] at h
    exact absurd (congrArg Prod.fst h) (by simp)
  · rw [heq] at h
    have hst := congrArg Prod.snd h
    simp only at hst
    rw [← hst]
    simp

/-- C7, witness: on a dirty store, creating a `SINGLE_REQUEST` session for
alice resets the dirty flag to false. -/
theorem C7_witness :
    ({ authTokens := [(zeroToken, aliceSingleRecord)]
       lastTimeoutUpdate := 0
       needWrite := false
       timeoutInSeconds := 1800
       authMethodsConfig := sampleAuthConfig } : SessionStore).needWrite =
      false :=
  C7_singleRequest_clears_dirty dirtyEmptyStore zeroDraws 5 "alice" "1.2.3.4"
    none false aliceSingleRecord
    { authTokens := [(zeroToken, aliceSingleRecord)]
      lastTimeoutUpdate := 0
      needWrite := false
      timeoutInSeconds := 1800
      authMethodsConfig := sampleAuthConfig }
    (by decide) (by decide)

/-! ### Claim C2 -/

/-- C2, counterexample: the claim says a session whose `lastActivity` is
`idleTimeout + 1` seconds in the past is removed by the next lookup.  In
`guardClosedStore` carol's session is expired by exactly `idleTimeout + 1`
(timeout 6, age 7), but a sweep ran at time 7, so the coalescing guard
blocks the sweep and the lookup at time 7 returns the expired session,
which also stays in the store. -/
theorem C2_counterexample :
    (loginSessionByToken guardClosedStore zeroToken 7).1 =
      some { carolSession with lastUpdated := 7 } ∧
    (zeroToken, { carolSession with lastUpdated := 7 }) ∈
      (loginSessionByToken guardClosedStore zeroToken 7).2.authTokens := by
  exact ⟨by decide, by decide⟩

/-- C2, amended: when at most one second has elapsed since the previous
sweep, the sweep is a no-op (so sweeps run at most once per second, and
even an expired session survives such a lookup).  When more than one second
has elapsed, the sweep stamps the store with the current time and removes
exactly the records with `now - lastActivity ≥ idleTimeout`, setting the
dirty flag iff it was set or at least one record expired; consequently the
next lookup removes every expired session (for a positive idleTimeout) —
in particular one expired by `idleTimeout + 1` — and keeps every session
with `now - lastActivity < idleTimeout`, in particular one idle for
`idleTimeout - 1`. -/
theorem C2_idle_sweep_amended (store : SessionStore) (tok : String)
    (now : Int) :
    (now - store.lastTimeoutUpdate ≤ 1 →
      applySessionTimeouts store now = store) ∧
    (1 < now - store.lastTimeoutUpdate →
      (applySessionTimeouts store now).lastTimeoutUpdate = now ∧
      (∀ p, p ∈ (applySessionTimeouts store now).authTokens ↔
          p ∈ store.authTokens ∧
            now - p.2.lastUpdated < store.timeoutInSeconds) ∧
      ((applySessionTimeouts store now).needWrite = true ↔
        store.needWrite = true ∨
          ∃ p ∈ store.authTokens,
            store.timeoutInSeconds ≤ now - p.2.lastUpdated) ∧
      (0 < store.timeoutInSeconds →
        ∀ p ∈ store.authTokens,
          store.timeoutInSeconds ≤ now - p.2.lastUpdated →
            p ∉ (loginSessionByToken store tok now).2.authTokens) ∧
      (∀ p ∈ store.authTokens,
        now - p.2.lastUpdated < store.timeoutInSeconds →
          ∃ q ∈ (loginSessionByToken store tok now).2.authTokens,
            q.1 = p.1)) := by
  constructor
  · exact applySessionTimeouts_of_le store now
  · intro hg
    refine ⟨applySessionTimeouts_lastTimeoutUpdate store now hg,
      fun p => mem_applySessionTimeouts store now p hg,
      applySessionTimeouts_needWrite_iff store now hg, ?_, ?_⟩
    · intro htm p hp hexp hmem
      have hnotswept : p ∉ (applySessionTimeouts store now).authTokens := by
        rw [mem_applySessionTimeouts store now p hg]
        rintro ⟨_, hlt⟩
        omega
      rcases loginSessionByToken_split store tok now with
        ⟨heq, _⟩ | ⟨s, _, _, heq⟩
      · rw [heq] at hmem
        exact hnotswept hmem
      · rw [heq] at hmem
        simp only at hmem
        rcases mem_updateEntry _ _ _ _ hmem with ⟨hmem2, _⟩ | ⟨_, hval⟩
        · exact hnotswept hmem2
        · rw [hval] at hexp
          simp only at hexp
          omega
    · intro p hp hfresh
      have hswept : p ∈ (applySessionTimeouts store now).authTokens :=
        (mem_applySessionTimeouts store now p hg).mpr ⟨hp, hfresh⟩
      rcases loginSessionByToken_split store tok now with
        ⟨heq, _⟩ | ⟨s, _, _, heq⟩
      · rw [heq]
        exact ⟨p, hswept, rfl⟩
      · rw [heq]
        simp only
        exact exists_mem_updateEntry _ tok _ p hswept

/-- C2, witness: on `guardOpenStore` (last sweep more than one second ago),
the lookup at time 7 removes carol's session, which is expired by
`idleTimeout + 1`. -/
theorem C2_witness :
    (zeroToken, carolSession) ∉
      (loginSessionByToken guardOpenStore zeroToken 7).2.authTokens :=
  (((C2_idle_sweep_amended guardOpenStore zeroToken 7).2 (by decide)).2.2.2.1
    (by decide)) (zeroToken, carolSession) (by decide) (by decide)

/-! ### Claim C4 -/

/-- C4: the comparison the `authTokens` map runs between a presented token
and a stored token examines every character position when the lengths
agree: its cost equals the common length, so it is the same wherever (or
whether) a mismatch occurs; only a length mismatch short-circuits (cost 0);
and the comparison decides equality. -/
theorem C4_constant_time_compare (a b a2 b2 : List Char)
    (hab : a.length = b.length) (h2 : a2.length = b2.length)
    (hlen : a.length = a2.length) :
    (constantTimeCompare a b).2 = (constantTimeCompare a2 b2).2 ∧
    (constantTimeCompare a b).2 = a.length ∧
    ((constantTimeCompare a b).1 = true ↔ a = b) ∧
    (∀ c d : List Char, c.length ≠ d.length →
      constantTimeCompare c d = (false, 0)) := by
  refine ⟨?_, constantTimeCompare_snd a b hab, ?_, ?_⟩
  · rw [constantTimeCompare_snd a b hab, constantTimeCompare_snd a2 b2 h2,
      hlen]
  · rw [constantTimeCompare_fst]
    simp
  · intro c d hcd
    unfold constantTimeCompare
    rw [if_neg hcd]

/-- C4, witness: comparing equal-length tokens that differ at the first
position costs exactly as much as comparing equal tokens of the same
length. -/
theorem C4_witness :
    (constantTimeCompare ("Zaaa".data) ("aaaa".data)).2 =
      (constantTimeCompare ("abcd".data) ("abcd".data)).2 :=
  (C4_constant_time_compare ("Zaaa".data) ("aaaa".data) ("abcd".data)
    ("abcd".data) (by decide) (by decide) (by decide)).1

/-! ### Claim C5 -/

/-- C5: for a persisted JSON document (unique keys), `fromJson` returns a
record iff each of the four mandatory fields is present as a non-empty
string — fields of unexpected type and unrecognised keys are skipped and
never reject the record by themselves — and every accepted record has
`lastActivity` reset to the supplied current time and `persistenceMode`
forced to `TIMEOUT`; `presentNonEmpty` indeed says "the key is present with
a non-empty string value". -/
theorem C5_fromJson_spec (j : List (String × JValue)) (now : Int)
    (hnd : (j.map (fun e => e.1)).Nodup) :
    ((UserSession.fromJson j now).isSome = true ↔
      (presentNonEmpty j "unique_id" = true ∧
       presentNonEmpty j "username" = true ∧
       presentNonEmpty j "session_token" = true ∧
       presentNonEmpty j "csrf_token" = true)) ∧
    (∀ u, UserSession.fromJson j now = some u →
      u.lastUpdated = now ∧ u.persistence = PersistenceType.TIMEOUT) ∧
    (∀ k, presentNonEmpty j k = true ↔
      ∃ v, (k, JValue.str v) ∈ j ∧ v ≠ "") := by
  have e1 : ((j.foldl applyElem emptyUserSession).uniqueId ≠ "" ↔
      presentNonEmpty j "unique_id" = true) := by
    have h := foldl_applyElem_uniqueId j emptyUserSession
    rw [show emptyUserSession.uniqueId = "" from rfl] at h
    rw [h]
    exact foldl_updField_ne_iff _ j hnd
  have e2 : ((j.foldl applyElem emptyUserSession).username ≠ "" ↔
      presentNonEmpty j "username" = true) := by
    have h := foldl_applyElem_username j emptyUserSession
    rw [show emptyUserSession.username = "" from rfl] at h
    rw [h]
    exact foldl_updField_ne_iff _ j hnd
  have e3 : ((j.foldl applyElem emptyUserSession).sessionToken ≠ "" ↔
      presentNonEmpty j "session_token" = true) := by
    have h := foldl_applyElem_sessionToken j emptyUserSession
    rw [show emptyUserSession.sessionToken = "" from rfl] at h
    rw [h]
    exact foldl_updField_ne_iff _ j hnd
  have e4 : ((j.foldl applyElem emptyUserSession).csrfToken ≠ "" ↔
      presentNonEmpty j "csrf_token" = true) := by
    have h := foldl_applyElem_csrfToken j emptyUserSession
    rw [show emptyUserSession.csrfToken = "" from rfl] at h
    rw [h]
    exact foldl_updField_ne_iff _ j hnd
  refine ⟨?_, ?_, ?_⟩
  · unfold UserSession.fromJson
    by_cases hc : (j.foldl applyElem emptyUserSession).uniqueId = "" ∨
        (j.foldl applyElem emptyUserSession).username = "" ∨
        (j.foldl applyElem emptyUserSession).sessionToken = "" ∨
        (j.foldl applyElem emptyUserSession).csrfToken = ""
    · rw [if_pos hc]
      simp only [Option.isSome_none, Bool.false_eq_true, false_iff]
      rintro ⟨p1, p2, p3, p4⟩
      rcases hc with h | h | h | h
      · exact e1.mpr p1 h
      · exact e2.mpr p2 h
      · exact e3.mpr p3 h
      · exact e4.mpr p4 h
    · rw [if_neg hc]
      push_neg at hc
      obtain ⟨n1, n2, n3, n4⟩ := hc
      simp only [Option.isSome_some, true_iff]
      exact ⟨e1.mp n1, e2.mp n2, e3.mp n3, e4.mp n4⟩
  · intro u hu
    unfold UserSession.fromJson at hu
    by_cases hc : (j.foldl applyElem emptyUserSession).uniqueId = "" ∨
        (j.foldl applyElem emptyUserSession).username = "" ∨
        (j.foldl applyElem emptyUserSession).sessionToken = "" ∨
        (j.foldl applyElem emptyUserSession).csrfToken = ""
    · rw [if_pos hc] at hu
      exact Option.noConfusion hu
    · rw [if_neg hc] at hu
      injection hu with hu
      rw [← hu]
      exact ⟨rfl, rfl⟩
  · intro k
    unfold presentNonEmpty
    rw [List.any_eq_true]
    constructor
    · rintro ⟨e, he, hpe⟩
      rw [Bool.and_eq_true] at hpe
      obtain ⟨hk, hv⟩ := hpe
      rw [decide_eq_true_eq] at hk
      rcases e with ⟨k0, v0⟩
      simp only at hk
      subst hk
      cases v0 with
      | str v =>
        simp only [decide_eq_true_eq] at hv
        exact ⟨v, he, hv⟩
      | num n => simp at hv
      | boolean b => simp at hv
      | null => simp at hv
    · rintro ⟨v, hv, hne⟩
      exact ⟨(k, JValue.str v), hv, by simp [hne]⟩

/-- C5, witness: a document with the four mandatory fields, an unrecognised
extra key and a wrong-typed `client_ip` is accepted. -/
theorem C5_witness :
    (UserSession.fromJson sampleDoc 7).isSome = true :=
  (C5_fromJson_spec sampleDoc 7 (by decide)).1.mpr
    ⟨by decide, by decide, by decide, by decide⟩

/-! ### Claim C8 -/

/-- C8: `removeSessionsByUsernameExceptSession` keeps exactly the entries
that do not match the username or that share the kept session's `uniqueId`:
a session is removed iff its username equals the given one and its uniqueId
differs from the kept handle's; and the operation depends on the kept
handle only through its `uniqueId`, so a different handle to the same
logical session protects the same entry.  Other users' sessions are
untouched (immediate from the characterisation). -/
theorem C8_remove_except_by_uniqueId (store : SessionStore)
    (username : String) (keep : UserSession) :
    (∀ p, p ∈ (removeSessionsByUsernameExceptSession store username
          keep).authTokens ↔
        p ∈ store.authTokens ∧
          ¬(p.2.username = username ∧ p.2.uniqueId ≠ keep.uniqueId)) ∧
    (∀ keep2 : UserSession, keep2.uniqueId = keep.uniqueId →
      removeSessionsByUsernameExceptSession store username keep2 =
        removeSessionsByUsernameExceptSession store username keep) := by
  constructor
  · intro p
    unfold removeSessionsByUsernameExceptSession
    simp only [List.mem_filter]
    constructor
    · rintro ⟨hp, hf⟩
      refine ⟨hp, ?_⟩
      rintro ⟨hu, hid⟩
      simp [hu, hid] at hf
    · rintro ⟨hp, hf⟩
      refine ⟨hp, ?_⟩
      by_cases hu : p.2.username = username
      · have hid : ¬ p.2.uniqueId ≠ keep.uniqueId := fun hid => hf ⟨hu, hid⟩
        simp [hu, hid]
      · simp [hu]
  · intro keep2 hk
    unfold removeSessionsByUsernameExceptSession
    rw [hk]

/-- C8, witness: removing alice's sessions except a *different* handle that
shares `aliceSessionA`'s uniqueId removes exactly what removing with
`aliceSessionA` itself removes. -/
theorem C8_witness :
    removeSessionsByUsernameExceptSession multiUserStore "alice"
        { aliceSessionA with sessionToken := "otherhandle" } =
      removeSessionsByUsernameExceptSession multiUserStore "alice"
        aliceSessionA :=
  (C8_remove_except_by_uniqueId multiUserStore "alice" aliceSessionA).2
    { aliceSessionA with sessionToken := "otherhandle" } (by decide)

/-! ### Claim C9 -/

/-- C9: `loginSessionByToken` is idempotent with respect to record
identity: if a call at time `t1` succeeds, that call stamped the returned
record's `lastActivity` with `t1`, and a second call in immediate
succession (at `t2` with `t1 ≤ t2 ≤ t1 + 1`, the idle timeout exceeding
one second) also succeeds, returning a record with the same `uniqueId`,
with `lastActivity` refreshed to `t2` — monotonically non-decreasing.
A miss (token not found after the sweep) returns no result. -/
theorem C9_login_idempotent (store : SessionStore) (tok : String)
    (t1 t2 : Int) (r1 : UserSession) (st1 : SessionStore)
    (h12 : t1 ≤ t2) (himm : t2 - t1 ≤ 1) (htm : 1 < store.timeoutInSeconds)
    (h1 : loginSessionByToken store tok t1 = (some r1, st1)) :
    r1.lastUpdated = t1 ∧
    (∃ r2 st2, loginSessionByToken st1 tok t2 = (some r2, st2) ∧
      r2.uniqueId = r1.uniqueId ∧ r1.lastUpdated ≤ r2.lastUpdated ∧
      r2.lastUpdated = t2) ∧
    (∀ tok2 now,
      mapFind (applySessionTimeouts store now).authTokens tok2 = none →
        (loginSessionByToken store tok2 now).1 = none) := by
  have hmiss : ∀ tok2 now,
      mapFind (applySessionTimeouts store now).authTokens tok2 = none →
        (loginSessionByToken store tok2 now).1 = none := by
    intro tok2 now hnone
    rcases loginSessionByToken_split store tok2 now with
      ⟨heq, _⟩ | ⟨s, _, hfind, _⟩
    · rw [heq]
    · rw [hnone] at hfind
      exact Option.noConfusion hfind
  rcases loginSessionByToken_split store tok t1 with
    ⟨heq, _⟩ | ⟨s, hlen, hfind, heq⟩
  · rw [heq] at h1
    exact absurd (congrArg Prod.fst h1) (by simp)
  · rw [heq] at h1
    injection h1 with hr hst
    injection hr with hr
    subst hr
    subst hst
    refine ⟨rfl, ?_, hmiss⟩
    have htm1 : (applySessionTimeouts store t1).timeoutInSeconds =
        store.timeoutInSeconds := applySessionTimeouts_timeoutInSeconds store t1
    have hfindSt1 : mapFind
        (updateEntry (applySessionTimeouts store t1).authTokens tok
          { s with lastUpdated := t1 }) tok =
        some { s with lastUpdated := t1 } :=
      mapFind_updateEntry _ tok s _ hfind
    set st1' : SessionStore :=
      { applySessionTimeouts store t1 with
          authTokens :=
            updateEntry (applySessionTimeouts store t1).authTokens tok
              { s with lastUpdated := t1 } } with hst1
    have htm2 : st1'.timeoutInSeconds = store.timeoutInSeconds := htm1
    have hfind2 : mapFind (applySessionTimeouts st1' t2).authTokens tok =
        some { s with lastUpdated := t1 } := by
      by_cases hg : 1 < t2 - st1'.lastTimeoutUpdate
      · rw [applySessionTimeouts_authTokens st1' t2 hg]
        apply mapFind_filter _ tok _ _ hfindSt1
        intro p hp hpk hpv
        rw [hpv]
        simp only [Bool.not_eq_eq_eq_not, Bool.not_true, decide_eq_false_iff_not,
          Int.not_le]
        rw [htm2]
        show t2 - t1 < store.timeoutInSeconds
        omega
      · rw [applySessionTimeouts_of_le st1' t2 (by omega)]
        exact hfindSt1
    rcases loginSessionByToken_split st1' tok t2 with
      ⟨_, hbad⟩ | ⟨s2, _, hfind2', heq2⟩
    · rcases hbad with hl | hf
      · exact absurd hlen hl
      · rw [hfind2] at hf
        exact Option.noConfusion hf
    · rw [hfind2] at hfind2'
      injection hfind2' with hs2
      subst hs2
      exact ⟨{ s with lastUpdated := t2 }, _, heq2, rfl, h12, rfl⟩

/-- C9, witness: logging in twice with bob's token at times 5 and 6 on
`bobStore` returns the same logical session both times, with `lastActivity`
refreshed monotonically. -/
theorem C9_witness :
    ({ bobSession with lastUpdated := 5 } : UserSession).lastUpdated = 5 ∧
    (∃ r2 st2,
      loginSessionByToken
          (loginSessionByToken bobStore zeroToken 5).2 zeroToken 6 =
        (some r2, st2) ∧
      r2.uniqueId = ({ bobSession with lastUpdated := 5 } :
          UserSession).uniqueId ∧
      ({ bobSession with lastUpdated := 5 } : UserSession).lastUpdated ≤
        r2.lastUpdated ∧
      r2.lastUpdated = 6) ∧
    (∀ tok2 now,
      mapFind (applySessionTimeouts bobStore now).authTokens tok2 = none →
        (loginSessionByToken bobStore tok2 now).1 = none) :=
  C9_login_idempotent bobStore zeroToken 5 6
    { bobSession with lastUpdated := 5 }
    (loginSessionByToken bobStore zeroToken 5).2 (by decide) (by decide)
    (by decide) (by decide)

/-! ### Claim C10 -/

/-- C10: the bulk revocation operations erase matching sessions without
touching the dirty flag and without triggering the idle sweep (the sweep
stamp is unchanged and non-matching sessions — even expired ones — are
kept), while single `removeSession` sets the dirty flag unconditionally,
even when the session's token is not in the store at all (in which case
the map is unchanged). -/
theorem C10_bulk_revocation_frame (store : SessionStore) (username : String)
    (keep s : UserSession) :
    (removeSessionsByUsername store username).needWrite = store.needWrite ∧
    (removeSessionsByUsername store username).lastTimeoutUpdate =
      store.lastTimeoutUpdate ∧
    (∀ p ∈ store.authTokens, ¬ p.2.username = username →
      p ∈ (removeSessionsByUsername store username).authTokens) ∧
    (removeSessionsByUsernameExceptSession store username keep).needWrite =
      store.needWrite ∧
    (removeSessionsByUsernameExceptSession store username
        keep).lastTimeoutUpdate = store.lastTimeoutUpdate ∧
    (∀ p ∈ store.authTokens, ¬ p.2.username = username →
      p ∈ (removeSessionsByUsernameExceptSession store username
        keep).authTokens) ∧
    (removeSession store s).needWrite = true ∧
    (mapFind store.authTokens s.sessionToken = none →
      (removeSession store s).authTokens = store.authTokens) := by
  refine ⟨rfl, rfl, ?_, rfl, rfl, ?_, rfl, ?_⟩
  · intro p hp hu
    unfold removeSessionsByUsername
    simp only [List.mem_filter]
    exact ⟨hp, by simp [hu]⟩
  · intro p hp hu
    unfold removeSessionsByUsernameExceptSession
    simp only [List.mem_filter]
    exact ⟨hp, by simp [hu]⟩
  · intro hnone
    unfold removeSession
    simp only
    exact eraseKey_of_not_mem store.authTokens s.sessionToken hnone

/-- C10, witness: bulk-revoking alice's sessions on `multiUserStore` leaves
the dirty flag and sweep stamp alone and keeps bob's entry, while single
removal of a session absent from the empty store still leaves the map
unchanged (and the flag is set by `removeSession` unconditionally). -/
theorem C10_witness :
    (zeroToken, bobSession) ∈
      (removeSessionsByUsername multiUserStore "alice").authTokens ∧
    (removeSession emptyStore bobSession).authTokens =
      emptyStore.authTokens :=
  ⟨(C10_bulk_revocation_frame multiUserStore "alice" bobSession
      bobSession).2.2.1 (zeroToken, bobSession) (by decide) (by decide),
   (C10_bulk_revocation_frame emptyStore "alice" bobSession
      bobSession).2.2.2.2.2.2.2 (by decide)⟩

end persistent_data
